import Mathlib

/-!
Shallow embedding of the Dataminr Pulse (limited) integration's server core:
the alert cache (`src/server/alerts/stateManager.js`), the authenticated
HTTP retry loop (`src/server/request.js`), the trial-mode lookup
(`src/unnamed/part_000` `doLookup`), the memoized alert-type filter factory
(`src/unnamed/part_000` `createAlertTypeFilter`) and the private-IP entity
filter (`src/unnamed/part_003` `removePrivateIps`).

Conventions for translating JavaScript values:
* a missing or falsy `alertId` / `alertType.name` is modelled as the empty
  string (the code only ever tests these fields for truthiness or uses them
  as map keys / lowercased names, and `""` behaves as every falsy value does);
* a falsy `alertTimestamp` is modelled as `none`; a truthy timestamp is
  `some t` with `t` its millisecond value `new Date(ts).getTime()`;
* the JS `Map` is modelled as an association list with JS `Map` semantics
  (`set` on an existing key updates in place, otherwise appends);
* JS `Array.prototype.sort` is stable (ES2019), so it is modelled by
  `List.insertionSort`, which is also stable.
-/

namespace DataminrPulse

/-! ## Constants (src/constants.js) -/

def CACHE_MAX_AGE_MS : Int := 72 * 60 * 60 * 1000

def CACHE_MAX_ITEMS : Nat := 100

def DEFAULT_ALERT_TYPES_TO_WATCH : List String := ["flash", "urgent"]

def TRIAL_MODE : Bool := true

/-! ## Data model -/

/-- An alert record, restricted to the fields the server core inspects;
`payload` stands for the opaque fields preserved for the renderer. -/
structure Alert where
  alertId : String
  alertTimestamp : Option Int
  alertTypeName : String
  payload : Nat := 0
deriving DecidableEq, Repr

/-- JS `Map<string, Alert>` as an insertion-ordered association list. -/
abbrev AlertMap := List (String × Alert)

def mapHas (m : AlertMap) (k : String) : Bool :=
  m.any (fun p => p.1 == k)

/-- JS `Map.prototype.set`: update in place if the key exists, else append. -/
def mapSet (m : AlertMap) (k : String) (v : Alert) : AlertMap :=
  if mapHas m k then m.map (fun p => if p.1 == k then (k, v) else p)
  else m ++ [(k, v)]

/-- The global cache object of stateManager.js: the alert sequence
(`cache[ALERTS_KEY]`) and the id index (`cache[ALERTS_MAP_KEY]`). -/
structure CacheState where
  alerts : List Alert
  alertsMap : AlertMap
deriving DecidableEq, Repr

def initialCache : CacheState := ⟨[], []⟩

/-! ## stateManager.js -/

/-- Model of `String.prototype.toLowerCase()` for the ASCII type names this code
handles (JS lowercases 'A'..'Z' to 'a'..'z'; no other characters occur in
the configured or incoming type names considered here). -/
def lowerChar (c : Char) : Char :=
  if 'A' ≤ c ∧ c ≤ 'Z' then Char.ofNat (c.toNat + 32) else c

def jsToLower (s : String) : String :=
  ⟨s.data.map lowerChar⟩

/-- The set built by `getAlertTypesToWatchSet`: the configured type names, lowercased.
The default configuration consists of plain strings, so only the
`String(t).toLowerCase()` branch of the JS normalisation is reachable. -/
def getAlertTypesToWatchSet : List String :=
  DEFAULT_ALERT_TYPES_TO_WATCH.map jsToLower

/-- The expression `alert.alertType && alert.alertType.name ? alert.alertType.name.toLowerCase() : 'alert'`
as it appears in `addAlertsToCache`. -/
def admissionTypeName (a : Alert) : String :=
  if a.alertTypeName = "" then "alert" else jsToLower a.alertTypeName

/-- The admission type filter of `addAlertsToCache`. -/
def allowedAlertsOf (alerts : List Alert) : List Alert :=
  if getAlertTypesToWatchSet = [] then alerts
  else alerts.filter (fun a => getAlertTypesToWatchSet.contains (admissionTypeName a))

/-- Sort key used by the cache's comparator:
`a.alertTimestamp ? new Date(a.alertTimestamp).getTime() : 0`. -/
def tsMs (a : Alert) : Int :=
  a.alertTimestamp.getD 0

/-- The binding `const alertTime = alert.alertTimestamp ? new Date(...).getTime() : now`. -/
def alertTimeOr (now : Int) (a : Alert) : Int :=
  a.alertTimestamp.getD now

/-- The post-merge age filter of `addAlertsToCache`: alerts without a
timestamp are removed, and so are alerts older than `CACHE_MAX_AGE_MS`. -/
def isFresh (now : Int) (a : Alert) : Bool :=
  match a.alertTimestamp with
  | none => false
  | some t => now - t ≤ CACHE_MAX_AGE_MS

/-- One step of the `allowedAlerts.forEach` admission loop: the accumulator is
`(newAlertsToAdd, existingMap)`; `existingMap` is mutated in place by the JS
code exactly when an alert is pushed. -/
def admitStep (now cutoff : Int) (acc : List Alert × AlertMap) (a : Alert) :
    List Alert × AlertMap :=
  if a.alertId = "" then (acc.1 ++ [a], acc.2)
  else if mapHas acc.2 a.alertId then acc
  else if alertTimeOr now a ≤ cutoff then acc
  else (acc.1 ++ [a], mapSet acc.2 a.alertId a)

/-- Adjacent out-of-order scan `timeA < timeB` over consecutive elements;
the JS loop runs `i` from 1 to `Math.min(10, length) - 1`, i.e. over the
adjacent pairs of the first ten elements. -/
def anyAdjLt : List Alert → Bool
  | a :: b :: rest => if tsMs a < tsMs b then true else anyAdjLt (b :: rest)
  | _ => false

def needsSortCheck (l : List Alert) : Bool :=
  anyAdjLt (l.take 10)

/-- Descending-timestamp order used by the cache. -/
def tsGe (a b : Alert) : Prop := tsMs b ≤ tsMs a

instance : DecidableRel tsGe := fun a b =>
  inferInstanceAs (Decidable (tsMs b ≤ tsMs a))

instance : IsTotal Alert tsGe :=
  ⟨fun a b => (le_total (tsMs b) (tsMs a)).imp id id⟩

instance : IsTrans Alert tsGe :=
  ⟨fun _ _ _ hab hbc => le_trans hbc hab⟩

/-- The stable descending sort `filteredAlerts.sort((a, b) => timeB - timeA)`. -/
def sortDesc (l : List Alert) : List Alert :=
  l.insertionSort tsGe

/-- The conditional re-sort of `addAlertsToCache`: only lists longer than 10
are examined, and only a detected inversion among the first ten elements
triggers the sort. -/
def maybeSort (l : List Alert) : List Alert :=
  if l.length > 10 then (if needsSortCheck l then sortDesc l else l) else l

/-- Rebuild of the id index from the (sorted, age-filtered) sequence,
performed only when the age filter removed something. -/
def rebuildMap (alerts : List Alert) : AlertMap :=
  alerts.foldl (fun m a => if a.alertId ≠ "" then mapSet m a.alertId a else m) []

structure AddResult where
  added : Nat
  total : Nat
deriving DecidableEq, Repr

/-- The function `addAlertsToCache(alerts)` of stateManager.js, with the ambient clock
passed explicitly.  Returns the new cache state and the `{added, total}`
result object. -/
def addAlertsToCache (now : Int) (alerts : List Alert) (st : CacheState) :
    CacheState × AddResult :=
  if alerts = [] then (st, ⟨0, st.alerts.length⟩)
  else
    let allowedAlerts := allowedAlertsOf alerts
    if allowedAlerts = [] then (st, ⟨0, st.alerts.length⟩)
    else
      let cutoff := now - CACHE_MAX_AGE_MS
      let admitted := allowedAlerts.foldl (admitStep now cutoff) ([], st.alertsMap)
      if admitted.1 = [] then (⟨st.alerts, admitted.2⟩, ⟨0, st.alerts.length⟩)
      else
        let allAlerts := admitted.1 ++ st.alerts
        let filteredAlerts := allAlerts.filter (isFresh now)
        let sortedAlerts := maybeSort filteredAlerts
        let finalMap :=
          if filteredAlerts.length ≠ allAlerts.length then rebuildMap sortedAlerts
          else admitted.2
        (⟨sortedAlerts, finalMap⟩, ⟨admitted.1.length, filteredAlerts.length⟩)

/-- The opportunistic age-cleanup pass at the start of `getCachedAlerts`:
if the oldest stored alert (last in the sequence) has a truthy timestamp at
or past the cutoff, the sequence is re-filtered and written back (the id map
is not touched). -/
def cleanupPass (now : Int) (st : CacheState) : List Alert × CacheState :=
  match st.alerts.getLast? with
  | some oldest =>
    match oldest.alertTimestamp with
    | some oldestTime =>
      if oldestTime ≤ now - CACHE_MAX_AGE_MS then
        (st.alerts.filter (fun a =>
           match a.alertTimestamp with
           | none => false
           | some t => now - CACHE_MAX_AGE_MS < t),
         (⟨st.alerts.filter (fun a =>
           match a.alertTimestamp with
           | none => false
           | some t => now - CACHE_MAX_AGE_MS < t), st.alertsMap⟩ : CacheState))
      else (st.alerts, st)
    | none => (st.alerts, st)
  | none => (st.alerts, st)

/-- The function `getCachedAlerts(alertFilterTimestamp)` of stateManager.js: opportunistic
age cleanup (which writes back to the cache but does not touch the id map),
then the optional caller-supplied timestamp filter.  Returns the list handed
to the caller and the possibly-cleaned cache state. -/
def getCachedAlerts (now : Int) (filterTs : Option Int) (st : CacheState) :
    List Alert × CacheState :=
  if st.alerts = [] then ([], st)
  else
    let cleaned := cleanupPass now st
    match filterTs with
    | none => cleaned
    | some fts =>
      (cleaned.1.filter (fun a =>
        match a.alertTimestamp with
        | none => false
        | some t => fts < t), cleaned.2)

/-! ## request.js: authenticated request with 401 refresh and 429 backoff

The `executeRequest` retry loop of `requestWithDefaults` is modelled as a
function of a response script (the outcome the upstream returns for each
attempt number).  Errors carry the upstream status and, for 429s, the parsed
`x-ratelimit-reset` header when present.  The bearer token is modelled by a
generation counter: generation 0 is the token resolved by the initial
`getToken(options)`, and a successful forced refresh increments it.
`refreshOk` says whether the `POST /auth/v1/token` refresh call succeeds.
All upstream errors are `ApiRequestError`s with a numeric status, the
common case the code's status checks target. -/

inductive Outcome where
  | ok (body : Nat)
  | err (status : Nat) (resetHeader : Option Nat)
deriving DecidableEq, Repr

inductive ReqError where
  | http (status : Nat)
  | tokenFail
deriving DecidableEq, Repr

/-- Value returned, or error thrown, by `executeRequest`. -/
inductive ReqResult where
  | ok (body : Nat)
  | error (e : ReqError)
deriving DecidableEq, Repr

/-- Observable trace of one `executeRequest` run: the value returned or error
thrown, the number of successful token refreshes, the backoff delays slept
(in ms, in order), and the token generation sent on each HTTP attempt. -/
structure ExecResult where
  result : ReqResult
  refreshes : Nat
  sleeps : List Nat
  tokensUsed : List Nat
deriving DecidableEq, Repr

/-- The binding `const retryDelay = resetMs ? parseInt(resetMs, 10) : Math.min(Math.pow(2, attemptNumber), 60) * 1000`. -/
def retryDelayMs (attempt : Nat) (resetHeader : Option Nat) : Nat :=
  match resetHeader with
  | some r => r
  | none => (min (2 ^ attempt) 60) * 1000

/-- The `while (attemptNumber <= maxRetries)` loop of `executeRequest`.
Fuel bounds the recursion; every iteration increments `attempt`, so
`maxRetries + 2` fuel is enough from `attempt = 0`. -/
def execAux (script : Nat → Outcome) (refreshOk : Bool) (maxRetries : Nat) :
    Nat → Nat → Nat → Bool → Option ReqError → ExecResult
  | 0, _, _, _, lastErr => ⟨.error (lastErr.getD (.http 0)), 0, [], []⟩
  | fuel + 1, attempt, tokenGen, tokenRefreshed, lastErr =>
    if attempt > maxRetries then ⟨.error (lastErr.getD (.http 0)), 0, [], []⟩
    else
      match script attempt with
      | .ok body => ⟨.ok body, 0, [], [tokenGen]⟩
      | .err status resetHeader =>
        if status = 401 ∧ tokenRefreshed = false then
          if refreshOk then
            let r := execAux script refreshOk maxRetries fuel (attempt + 1)
              (tokenGen + 1) true (some (.http status))
            ⟨r.result, r.refreshes + 1, r.sleeps, tokenGen :: r.tokensUsed⟩
          else ⟨.error .tokenFail, 0, [], [tokenGen]⟩
        else if status = 429 ∧ attempt < maxRetries then
          let d := retryDelayMs attempt resetHeader
          let r := execAux script refreshOk maxRetries fuel (attempt + 1)
            tokenGen tokenRefreshed (some (.http status))
          ⟨r.result, r.refreshes, d :: r.sleeps, tokenGen :: r.tokensUsed⟩
        else ⟨.error (.http status), 0, [], [tokenGen]⟩

/-- One run of the `executeRequest` closure built by `requestWithDefaults`
(`maxRetries` defaults to 3 in the source). -/
def executeRequest (script : Nat → Outcome) (refreshOk : Bool)
    (maxRetries : Nat := 3) : ExecResult :=
  execAux script refreshOk maxRetries (maxRetries + 2) 0 0 false none

/-! ## Entities, trial-mode lookup (src/unnamed/part_000 `doLookup`) -/

structure Entity where
  value : String
  isIP : Bool
deriving DecidableEq, Repr

/-- One element of the `searchAlerts` fan-out result:
`{resultId, result}`; `none` models a missing or non-array `result`. -/
structure SearchResult where
  resultId : String
  result : Option (List Alert)
deriving DecidableEq, Repr

/-- The per-entity `data.details` record built on the trial path. -/
structure LookupData where
  summary : List String
  trialSearch : Bool
  alertCount : Nat
  alerts : List Alert
deriving DecidableEq, Repr

structure LookupResult where
  entity : Entity
  data : Option LookupData
deriving DecidableEq, Repr

/-- The lookup `alerts.find(r => r.resultId === entity.value)` followed by
`Array.isArray(r.result) ? r.result.length : 0`. -/
def entityAlertCount (e : Entity) (alerts : List SearchResult) : Nat :=
  match alerts.find? (fun r => r.resultId == e.value) with
  | some r =>
    match r.result with
    | some l => l.length
    | none => 0
  | none => 0

/-- The `entities.map` of the trial branch of `doLookup`. -/
def trialLookupResults (entities : List Entity) (alerts : List SearchResult) :
    List LookupResult :=
  entities.map (fun entity =>
    let alertCount := entityAlertCount entity alerts
    { entity
      data :=
        if alertCount > 0 then
          some { summary := ["Alerts: " ++ toString alertCount]
                 trialSearch := true
                 alertCount := alertCount
                 alerts := [] }
        else none })

/-- The `if (!TRIAL_MODE) ... else ...` dispatch inside `doLookup`;
`assembled` stands for the `assembleLookupResults` output of the
non-trial path. -/
def doLookupResults (entities : List Entity) (alerts : List SearchResult)
    (assembled : List LookupResult) : List LookupResult :=
  if !TRIAL_MODE then assembled else trialLookupResults entities alerts

/-! ## createAlertTypeFilter (src/unnamed/part_000)

`alertTypeFilterCache` maps a cache key to a predicate closure.  Closure
identity is modelled by a fresh numeric id allocated at creation time (the
id of the `filterFn` object); the key, `JSON.stringify` of the sorted raw
type strings, is modelled by the sorted string list itself (JSON encoding
is injective on arrays of strings).  Configured entries are represented by
their extracted type strings: the key uses `t.value` / `t` raw, which for
the supported string and `{value, display}` shapes is exactly this string. -/

abbrev FilterCache := List (List String × Nat)

/-- The selection `options.setAlertTypesToWatch && length > 0 ? it : DEFAULT_ALERT_TYPES_TO_WATCH`. -/
def alertTypesFor (setAlertTypesToWatch : List String) : List String :=
  if setAlertTypesToWatch ≠ [] then setAlertTypesToWatch
  else DEFAULT_ALERT_TYPES_TO_WATCH

/-- JS string `<` comparison: lexicographic by code unit. -/
def charListLt : List Char → List Char → Bool
  | [], [] => false
  | [], _ :: _ => true
  | _ :: _, [] => false
  | a :: as, b :: bs =>
    if a < b then true else if b < a then false else charListLt as bs

/-- JS default `Array.prototype.sort` on strings (stable, lexicographic by
UTF-16 code unit). -/
def sortStrings (l : List String) : List String :=
  l.insertionSort (fun a b => charListLt b.data a.data = false)

/-- The memo key: `JSON.stringify(types.map(raw value).sort())`. -/
def filterCacheKey (setAlertTypesToWatch : List String) : List String :=
  sortStrings (alertTypesFor setAlertTypesToWatch)

/-- The factory `createAlertTypeFilter(options)` against the module-level
`alertTypeFilterCache`: returns the (id of the) predicate instance and the
updated cache. -/
def createAlertTypeFilter (setAlertTypesToWatch : List String)
    (cache : FilterCache) : Nat × FilterCache :=
  let key := filterCacheKey setAlertTypesToWatch
  match cache.find? (fun p => p.1 == key) with
  | some p => (p.2, cache)
  | none => (cache.length, cache ++ [(key, cache.length)])

/-- The lowercased type set the created predicate closes over. -/
def normalizedTypesFor (setAlertTypesToWatch : List String) : List String :=
  (alertTypesFor setAlertTypesToWatch).map jsToLower

/-- The expression `alert.alertType && alert.alertType.name ? ...toLowerCase() : 'alert'`
as it appears in the read-time filter `filterFn`. -/
def readTypeName (a : Alert) : String :=
  if a.alertTypeName = "" then "alert" else jsToLower a.alertTypeName

/-- The behaviour of the predicate `filterFn` returned by
`createAlertTypeFilter` for a given configuration. -/
def typeFilterFn (setAlertTypesToWatch : List String) (a : Alert) : Bool :=
  if normalizedTypesFor setAlertTypesToWatch = [] then true
  else (normalizedTypesFor setAlertTypesToWatch).contains (readTypeName a)

/-! ## removePrivateIps (src/unnamed/part_003) -/

/-- JS `String.prototype.split('.')` over the character list. -/
def jsSplitAux (sep : Char) : List Char → List Char → List (List Char)
  | [], acc => [acc.reverse]
  | c :: rest, acc =>
    if c = sep then acc.reverse :: jsSplitAux sep rest []
    else jsSplitAux sep rest (c :: acc)

def jsSplitDot (s : String) : List (List Char) :=
  jsSplitAux '.' s.data []

/-- Digit-prefix accumulator of `parseInt(s, 10)`. -/
def parseDigitsAux : List Char → Nat → Nat
  | [], acc => acc
  | c :: rest, acc =>
    if c.isDigit then parseDigitsAux rest (acc * 10 + (c.toNat - '0'.toNat))
    else acc

/-- Model of `parseInt(s, 10)` for the strings reachable here (octet substrings of an
IP value and the absent/empty part, which parse to a number exactly when they
start with a digit); `none` models `NaN`. -/
def parseIntLeading : List Char → Option Nat
  | [] => none
  | c :: rest =>
    if c.isDigit then some (parseDigitsAux (c :: rest) 0) else none

/-- The function `isPrivateIP(ip)` of src/unnamed/part_003.  A missing `parts[1]`
(`undefined` in JS) is modelled by `[]`: `parseInt(undefined)` is `NaN` and
`undefined === '168'` is false, exactly the behaviour of `[]` here. -/
def isPrivateIP (ip : String) : Bool :=
  let parts := jsSplitDot ip
  let p0 := parts.headD []
  let p1 := (parts.get? 1).getD []
  p0 == "10".data ||
  (p0 == "172".data &&
    (match parseIntLeading p1 with
     | some n => decide (16 ≤ n) && decide (n ≤ 31)
     | none => false)) ||
  (p0 == "192".data && p1 == "168".data)

/-- The function `removePrivateIps(entities)`:
`filter(({isIP, value}) => !isIP || (isIP && !isPrivateIP(value)))`. -/
def removePrivateIps (entities : List Entity) : List Entity :=
  entities.filter (fun e => !e.isIP || (e.isIP && !isPrivateIP e.value))

/-- Canonical dotted-quad rendering of four octets. -/
def mkIp (a b c d : Nat) : String :=
  toString a ++ "." ++ toString b ++ "." ++ toString c ++ "." ++ toString d

/-! ## Helper lemmas -/

theorem mapHas_iff (m : AlertMap) (k : String) :
    mapHas m k = true ↔ ∃ p ∈ m, p.1 = k := by
  simp [mapHas, List.any_eq_true, beq_iff_eq]

theorem mapHas_mapSet_self (m : AlertMap) (k : String) (v : Alert) :
    mapHas (mapSet m k v) k = true := by
  unfold mapSet
  by_cases h : mapHas m k = true
  · simp only [h, if_true]
    rcases (mapHas_iff m k).1 h with ⟨p, hp, hpk⟩
    refine (mapHas_iff _ k).2 ⟨(k, v), List.mem_map.2 ⟨p, hp, ?_⟩, rfl⟩
    simp [hpk]
  · simp only [h, if_false]
    exact (mapHas_iff _ k).2 ⟨(k, v), by simp, rfl⟩

theorem mapHas_mapSet_of (m : AlertMap) (k k2 : String) (v : Alert)
    (h : mapHas m k = true) : mapHas (mapSet m k2 v) k = true := by
  unfold mapSet
  rcases (mapHas_iff m k).1 h with ⟨p, hp, hpk⟩
  by_cases h2 : mapHas m k2 = true
  · simp only [h2, if_true]
    by_cases hk : p.1 = k2
    · refine (mapHas_iff _ k).2 ⟨(k2, v), List.mem_map.2 ⟨p, hp, by simp [hk]⟩, ?_⟩
      simp [← hpk, hk]
    · refine (mapHas_iff _ k).2 ⟨p, List.mem_map.2 ⟨p, hp, by simp [hk]⟩, hpk⟩
  · simp only [h2, if_false]
    exact (mapHas_iff _ k).2 ⟨p, by simp [hp], hpk⟩

theorem mapHas_foldl_rebuild (k : String) :
    ∀ (l : List Alert) (m : AlertMap), mapHas m k = true →
      mapHas (l.foldl (fun m a => if a.alertId ≠ "" then mapSet m a.alertId a else m) m) k
        = true := by
  intro l
  induction l with
  | nil => intro m h; exact h
  | cons a t ih =>
    intro m h
    simp only [List.foldl_cons]
    by_cases ha : a.alertId ≠ ""
    · rw [if_pos ha]
      exact ih _ (mapHas_mapSet_of m k a.alertId a h)
    · rw [if_neg ha]
      exact ih _ h

theorem mapHas_foldl_rebuild_of_mem (k : String) :
    ∀ (l : List Alert) (m : AlertMap), (∃ a ∈ l, a.alertId = k ∧ k ≠ "") →
      mapHas (l.foldl (fun m a => if a.alertId ≠ "" then mapSet m a.alertId a else m) m) k
        = true := by
  intro l
  induction l with
  | nil => rintro m ⟨a, ha, _⟩; cases ha
  | cons b t ih =>
    rintro m ⟨a, ha, hak, hk⟩
    rcases List.mem_cons.1 ha with rfl | hmem
    · simp only [List.foldl_cons]
      rw [if_pos (by rw [hak]; exact hk)]
      exact mapHas_foldl_rebuild k t _ (hak ▸ mapHas_mapSet_self m k a)
    · simp only [List.foldl_cons]
      by_cases hb : b.alertId ≠ ""
      · rw [if_pos hb]; exact ih _ ⟨a, hmem, hak, hk⟩
      · rw [if_neg hb]; exact ih _ ⟨a, hmem, hak, hk⟩

theorem mapHas_rebuildMap_of_mem {a : Alert} {l : List Alert}
    (hmem : a ∈ l) (hid : a.alertId ≠ "") :
    mapHas (rebuildMap l) a.alertId = true :=
  mapHas_foldl_rebuild_of_mem a.alertId l [] ⟨a, hmem, rfl, hid⟩

theorem perm_sortDesc (l : List Alert) : List.Perm (sortDesc l) l :=
  List.perm_insertionSort tsGe l

theorem pairwise_sortDesc (l : List Alert) : (sortDesc l).Pairwise tsGe :=
  List.sorted_insertionSort tsGe l

theorem mem_maybeSort {a : Alert} {l : List Alert} : a ∈ maybeSort l ↔ a ∈ l := by
  unfold maybeSort
  split
  · split
    · exact (perm_sortDesc l).mem_iff
    · exact Iff.rfl
  · exact Iff.rfl

theorem length_maybeSort (l : List Alert) : (maybeSort l).length = l.length := by
  unfold maybeSort
  split
  · split
    · exact (perm_sortDesc l).length_eq
    · rfl
  · rfl

theorem anyAdjLt_eq_false {l : List Alert} (h : l.Pairwise tsGe) :
    anyAdjLt l = false := by
  induction l with
  | nil => rfl
  | cons a t ih =>
    match t, h with
    | [], _ => rfl
    | b :: t, h =>
      have hab : tsGe a b := (List.pairwise_cons.1 h).1 b (by simp)
      have ht := (List.pairwise_cons.1 h).2
      simp only [anyAdjLt]
      rw [if_neg (not_lt.2 hab)]
      exact ih ht

theorem needsSortCheck_eq_false {l : List Alert} (h : l.Pairwise tsGe) :
    needsSortCheck l = false :=
  anyAdjLt_eq_false (h.sublist (List.take_sublist 10 l))

theorem pairwise_maybeSort {l : List Alert} (h : l.Pairwise tsGe) :
    (maybeSort l).Pairwise tsGe := by
  unfold maybeSort
  split
  · split
    · exact pairwise_sortDesc l
    · exact h
  · exact h

theorem maybeSort_eq_of_pairwise {l : List Alert} (h : l.Pairwise tsGe) :
    maybeSort l = l := by
  unfold maybeSort
  rw [needsSortCheck_eq_false h]
  split <;> simp

theorem maybeSort_idem (l : List Alert) : maybeSort (maybeSort l) = maybeSort l := by
  by_cases hlen : l.length > 10
  · by_cases hns : needsSortCheck l = true
    · have h1 : maybeSort l = sortDesc l := by
        unfold maybeSort; rw [if_pos hlen, if_pos hns]
      rw [h1]
      exact maybeSort_eq_of_pairwise (pairwise_sortDesc l)
    · have h1 : maybeSort l = l := by
        unfold maybeSort
        rw [if_pos hlen, if_neg hns]
      rw [h1]
      unfold maybeSort
      rw [if_pos hlen, if_neg hns]
  · have h1 : maybeSort l = l := by unfold maybeSort; rw [if_neg hlen]
    rw [h1, h1]

theorem all_isFresh_maybeSort {now : Int} {l : List Alert}
    (h : ∀ a ∈ l, isFresh now a = true) :
    ∀ a ∈ maybeSort l, isFresh now a = true :=
  fun a ha => h a (mem_maybeSort.1 ha)

/-- The `forEach` admission loop appends a sublist of its input to the
accumulated `newAlertsToAdd`. -/
theorem foldl_admit_sublist (now cutoff : Int) :
    ∀ (l init : List Alert) (m : AlertMap),
      ∃ s, (l.foldl (admitStep now cutoff) (init, m)).1 = init ++ s ∧ s.Sublist l := by
  intro l
  induction l with
  | nil => intro init m; exact ⟨[], by simp, List.Sublist.refl []⟩
  | cons a t ih =>
    intro init m
    simp only [List.foldl_cons]
    unfold admitStep
    by_cases h1 : a.alertId = ""
    · rw [if_pos h1]
      rcases ih (init ++ [a]) m with ⟨s, hs, hsub⟩
      exact ⟨a :: s, by simpa using hs, List.Sublist.cons₂ a hsub⟩
    · rw [if_neg h1]
      by_cases h2 : mapHas m a.alertId = true
      · rw [if_pos h2]
        rcases ih init m with ⟨s, hs, hsub⟩
        exact ⟨s, hs, hsub.cons a⟩
      · rw [if_neg h2]
        by_cases h3 : alertTimeOr now a ≤ cutoff
        · rw [if_pos h3]
          rcases ih init m with ⟨s, hs, hsub⟩
          exact ⟨s, hs, hsub.cons a⟩
        · rw [if_neg h3]
          rcases ih (init ++ [a]) (mapSet m a.alertId a) with ⟨s, hs, hsub⟩
          exact ⟨a :: s, by simpa using hs, List.Sublist.cons₂ a hsub⟩

theorem allowedAlertsOf_sublist (alerts : List Alert) :
    (allowedAlertsOf alerts).Sublist alerts := by
  unfold allowedAlertsOf
  split
  · exact List.Sublist.refl alerts
  · exact List.filter_sublist alerts

/-! ## Claim C1 -/

/-- A batch of 101 distinct, fresh, watched-type alerts, newest first
(`id0` at `now`, `id100` 100 ms older). -/
def batch101 : List Alert :=
  (List.range 101).map (fun i =>
    { alertId := "id" ++ toString i
      alertTimestamp := some ((2000000 : Int) - i)
      alertTypeName := "flash"
      payload := 0 })

set_option maxRecDepth 40000 in
/-- C1: evaluating `addAlertsToCache` on 101 admissible alerts shows the
stored sequence grows to 101 entries, exceeding `CACHE_MAX_ITEMS = 100`:
no sort-and-truncate to `CACHE_MAX_ITEMS` ever happens (the constant is
defined in src/constants.js but never consulted by stateManager.js). -/
theorem cache_bound_violated :
    (addAlertsToCache 2000000 batch101 initialCache).1.alerts.length = 101 ∧
      CACHE_MAX_ITEMS = 100 ∧ 100 < 101 := by
  refine ⟨by decide, rfl, by decide⟩

/-! ## Claim C6 -/

/-- C6 counterexample: adding the two fresh flash alerts
`[{x, ts 1000}, {y, ts 2000}]` (oldest first) to the empty cache leaves the
stored sequence `[ts 1000, ts 2000]`, which is not sorted by
`alertTimestamp` descending — the conditional sort never fires for merged
lists of at most 10 elements. -/
theorem add_ordering_counterexample :
    ¬ ((addAlertsToCache 2000
          [⟨"x", some 1000, "flash", 0⟩, ⟨"y", some 2000, "flash", 0⟩]
          initialCache).1.alerts.Pairwise tsGe) := by
  decide

/-- C6 (amended): after `addAlertsToCache`, the stored sequence is sorted by
`alertTimestamp` descending provided the prior cache contents were sorted
descending, the incoming batch is sorted descending, and every incoming
alert is at least as new as every cached alert; for other inputs the
conditional re-sort may leave the sequence unsorted (see the
counterexample). -/
theorem add_preserves_ordering (now : Int) (batch : List Alert) (st : CacheState)
    (hst : st.alerts.Pairwise tsGe) (hbatch : batch.Pairwise tsGe)
    (hcross : ∀ a ∈ batch, ∀ b ∈ st.alerts, tsGe a b) :
    ((addAlertsToCache now batch st).1.alerts).Pairwise tsGe := by
  simp only [addAlertsToCache]
  by_cases h0 : batch = []
  · rw [if_pos h0]; exact hst
  · rw [if_neg h0]
    by_cases h1 : allowedAlertsOf batch = []
    · rw [if_pos h1]; exact hst
    · rw [if_neg h1]
      rcases foldl_admit_sublist now (now - CACHE_MAX_AGE_MS)
          (allowedAlertsOf batch) [] st.alertsMap with ⟨s, hs, hsub⟩
      by_cases h2 :
          ((allowedAlertsOf batch).foldl
            (admitStep now (now - CACHE_MAX_AGE_MS)) ([], st.alertsMap)).1 = []
      · rw [if_pos h2]; exact hst
      · rw [if_neg h2]
        apply pairwise_maybeSort
        apply List.Pairwise.sublist (List.filter_sublist _)
        rw [hs, List.nil_append]
        have hsubB : s.Sublist batch := hsub.trans (allowedAlertsOf_sublist batch)
        rw [List.pairwise_append]
        exact ⟨hbatch.sublist hsubB, hst,
          fun a ha b hb => hcross a (hsubB.subset ha) b hb⟩

/-- Witness for the amended C6 theorem at a concrete input: a newest-first
batch added to the empty cache stays sorted descending. -/
theorem add_preserves_ordering_witness :
    ((addAlertsToCache 2000
        [⟨"y", some 2000, "flash", 0⟩, ⟨"x", some 1000, "flash", 0⟩]
        initialCache).1.alerts).Pairwise tsGe :=
  add_preserves_ordering 2000
    [⟨"y", some 2000, "flash", 0⟩, ⟨"x", some 1000, "flash", 0⟩]
    initialCache (by decide) (by decide) (by decide)

/-! ## Singleton-add characterizations (for C2) -/

theorem allowedAlertsOf_singleton (a : Alert) :
    allowedAlertsOf [a] =
      if getAlertTypesToWatchSet.contains (admissionTypeName a) = true
      then [a] else [] := by
  unfold allowedAlertsOf
  rw [if_neg (by decide), List.filter_cons, List.filter_nil]

theorem add_skip_type (now : Int) (a : Alert) (st : CacheState)
    (hp : getAlertTypesToWatchSet.contains (admissionTypeName a) = false) :
    addAlertsToCache now [a] st = (st, ⟨0, st.alerts.length⟩) := by
  have hAllowed : allowedAlertsOf [a] = [] := by
    rw [allowedAlertsOf_singleton a, hp]; simp
  simp only [addAlertsToCache]
  rw [if_neg (by simp), hAllowed, if_pos rfl]

theorem add_skip_dup (now : Int) (a : Alert) (st : CacheState)
    (hp : getAlertTypesToWatchSet.contains (admissionTypeName a) = true)
    (hid : a.alertId ≠ "")
    (hdup : mapHas st.alertsMap a.alertId = true) :
    addAlertsToCache now [a] st = (st, ⟨0, st.alerts.length⟩) := by
  have hAllowed : allowedAlertsOf [a] = [a] := by
    rw [allowedAlertsOf_singleton a, hp]; simp
  have hFold : ([a] : List Alert).foldl
      (admitStep now (now - CACHE_MAX_AGE_MS)) ([], st.alertsMap)
      = ([], st.alertsMap) := by
    simp only [List.foldl_cons, List.foldl_nil, admitStep]
    rw [if_neg hid, if_pos hdup]
  simp only [addAlertsToCache]
  rw [if_neg (by simp), hAllowed, if_neg (by simp), hFold]
  rfl

theorem add_skip_stale (now : Int) (a : Alert) (st : CacheState)
    (hp : getAlertTypesToWatchSet.contains (admissionTypeName a) = true)
    (hid : a.alertId ≠ "")
    (hdup : mapHas st.alertsMap a.alertId = false)
    (hstale : alertTimeOr now a ≤ now - CACHE_MAX_AGE_MS) :
    addAlertsToCache now [a] st = (st, ⟨0, st.alerts.length⟩) := by
  have hAllowed : allowedAlertsOf [a] = [a] := by
    rw [allowedAlertsOf_singleton a, hp]; simp
  have hFold : ([a] : List Alert).foldl
      (admitStep now (now - CACHE_MAX_AGE_MS)) ([], st.alertsMap)
      = ([], st.alertsMap) := by
    simp only [List.foldl_cons, List.foldl_nil, admitStep]
    rw [if_neg hid, if_neg (by simp [hdup]), if_pos hstale]
  simp only [addAlertsToCache]
  rw [if_neg (by simp), hAllowed, if_neg (by simp), hFold]
  rfl

theorem add_admit_eq (now : Int) (a : Alert) (st : CacheState)
    (hp : getAlertTypesToWatchSet.contains (admissionTypeName a) = true)
    (hid : a.alertId ≠ "")
    (hdup : mapHas st.alertsMap a.alertId = false)
    (hstale : ¬ (alertTimeOr now a ≤ now - CACHE_MAX_AGE_MS)) :
    (addAlertsToCache now [a] st).1 =
      ⟨maybeSort ((a :: st.alerts).filter (isFresh now)),
       if ((a :: st.alerts).filter (isFresh now)).length ≠ (a :: st.alerts).length
       then rebuildMap (maybeSort ((a :: st.alerts).filter (isFresh now)))
       else mapSet st.alertsMap a.alertId a⟩ := by
  have hAllowed : allowedAlertsOf [a] = [a] := by
    rw [allowedAlertsOf_singleton a, hp]; simp
  have hFold : ([a] : List Alert).foldl
      (admitStep now (now - CACHE_MAX_AGE_MS)) ([], st.alertsMap)
      = ([a], mapSet st.alertsMap a.alertId a) := by
    simp only [List.foldl_cons, List.foldl_nil, admitStep]
    rw [if_neg hid, if_neg (by simp [hdup]), if_neg hstale]
    simp
  simp only [addAlertsToCache]
  rw [if_neg (by simp), hAllowed, if_neg (by simp), hFold]
  rfl

/-! ## Claim C2 -/

/-- C2 counterexample: for an alert with a falsy `alertId` (the code's
`if (!alert.alertId)` path pushes it without any duplicate check),
`add([a]); add([a])` stores the alert twice, so the two-add state differs
from the one-add state. -/
theorem add_idem_counterexample :
    (addAlertsToCache 1000 [⟨"", some 1000, "flash", 0⟩]
        (addAlertsToCache 1000 [⟨"", some 1000, "flash", 0⟩] initialCache).1).1
      ≠ (addAlertsToCache 1000 [⟨"", some 1000, "flash", 0⟩] initialCache).1 := by
  decide

/-- C2 (amended): an inbound alert with a non-empty `alertId` already present
in the id-to-alert mapping is discarded leaving the store unchanged
(first-write-wins), and for every alert with a non-empty `alertId`,
`add([a]); add([a])` leaves the store identical to `add([a])`.  An alert
with a falsy `alertId` bypasses the duplicate check and is admitted again
(see the counterexample). -/
theorem add_first_write_wins :
    (∀ (now : Int) (a : Alert) (st : CacheState), a.alertId ≠ "" →
        mapHas st.alertsMap a.alertId = true →
        (addAlertsToCache now [a] st).1 = st) ∧
    (∀ (now : Int) (a : Alert) (st : CacheState), a.alertId ≠ "" →
        (addAlertsToCache now [a] (addAlertsToCache now [a] st).1).1
          = (addAlertsToCache now [a] st).1) := by
  have dupNoop : ∀ (now : Int) (a : Alert) (st : CacheState), a.alertId ≠ "" →
      mapHas st.alertsMap a.alertId = true →
      (addAlertsToCache now [a] st).1 = st := by
    intro now a st hid hdup
    by_cases hp : getAlertTypesToWatchSet.contains (admissionTypeName a) = true
    · rw [add_skip_dup now a st hp hid hdup]
    · have hp' : getAlertTypesToWatchSet.contains (admissionTypeName a) = false := by
        cases hEq : getAlertTypesToWatchSet.contains (admissionTypeName a)
        · rfl
        · exact absurd hEq hp
      rw [add_skip_type now a st hp']
  refine ⟨dupNoop, ?_⟩
  intro now a st hid
  by_cases hp : getAlertTypesToWatchSet.contains (admissionTypeName a) = true
  case neg =>
    have hp' : getAlertTypesToWatchSet.contains (admissionTypeName a) = false := by
      cases hEq : getAlertTypesToWatchSet.contains (admissionTypeName a)
      · rfl
      · exact absurd hEq hp
    simp [add_skip_type now a st hp']
  case pos =>
  by_cases hdup : mapHas st.alertsMap a.alertId = true
  · have h1 : (addAlertsToCache now [a] st).1 = st := dupNoop now a st hid hdup
    rw [h1]
    exact h1
  · have hdup' : mapHas st.alertsMap a.alertId = false := by
      cases hEq : mapHas st.alertsMap a.alertId
      · rfl
      · exact absurd hEq hdup
    by_cases hstale : alertTimeOr now a ≤ now - CACHE_MAX_AGE_MS
    · have h1 : (addAlertsToCache now [a] st).1 = st := by
        rw [add_skip_stale now a st hp hid hdup' hstale]
      rw [h1]
      exact h1
    · have h1 := add_admit_eq now a st hp hid hdup' hstale
      by_cases hfresh : isFresh now a = true
      · -- fresh: the added alert survives the filter, so its id is indexed
        have hmemF : a ∈ (a :: st.alerts).filter (isFresh now) :=
          List.mem_filter.2 ⟨List.mem_cons_self a _, hfresh⟩
        have hhas : mapHas (addAlertsToCache now [a] st).1.alertsMap
            a.alertId = true := by
          rw [h1]
          show mapHas
            (if ((a :: st.alerts).filter (isFresh now)).length
                ≠ (a :: st.alerts).length
             then rebuildMap (maybeSort ((a :: st.alerts).filter (isFresh now)))
             else mapSet st.alertsMap a.alertId a) a.alertId = true
          by_cases hlen : ((a :: st.alerts).filter (isFresh now)).length
              ≠ (a :: st.alerts).length
          · rw [if_pos hlen]
            exact mapHas_rebuildMap_of_mem (mem_maybeSort.2 hmemF) hid
          · rw [if_neg hlen]
            exact mapHas_mapSet_self st.alertsMap a.alertId a
        exact dupNoop now a (addAlertsToCache now [a] st).1 hid hhas
      · -- not fresh but past the staleness check: the timestamp is falsy
        have hts : a.alertTimestamp = none := by
          cases hAts : a.alertTimestamp with
          | none => rfl
          | some t =>
            exfalso
            have hf : ¬ (now - t ≤ CACHE_MAX_AGE_MS) := by
              intro hle
              exact hfresh (by simp [isFresh, hAts, hle])
            have hs : ¬ (t ≤ now - CACHE_MAX_AGE_MS) := by
              simpa [alertTimeOr, hAts] using hstale
            omega
        have hfresh' : isFresh now a = false := by
          cases hEq : isFresh now a
          · rfl
          · exact absurd hEq hfresh
        have hfilter : (a :: st.alerts).filter (isFresh now)
            = st.alerts.filter (isFresh now) := by
          rw [List.filter_cons, if_neg (by simp [hfresh'])]
        have hlen1 : (st.alerts.filter (isFresh now)).length
            ≠ (a :: st.alerts).length := by
          have hle := List.length_filter_le (isFresh now) st.alerts
          simp only [List.length_cons]
          omega
        rw [hfilter, if_pos hlen1] at h1
        by_cases hdup2 : mapHas (addAlertsToCache now [a] st).1.alertsMap
            a.alertId = true
        · exact dupNoop now a (addAlertsToCache now [a] st).1 hid hdup2
        · have hdup2' : mapHas (addAlertsToCache now [a] st).1.alertsMap
              a.alertId = false := by
            cases hEq : mapHas (addAlertsToCache now [a] st).1.alertsMap a.alertId
            · rfl
            · exact absurd hEq hdup2
          have h2 := add_admit_eq now a (addAlertsToCache now [a] st).1
            hp hid hdup2' hstale
          rw [h2, h1]
          have hall : ∀ x ∈ maybeSort (st.alerts.filter (isFresh now)),
              isFresh now x = true :=
            all_isFresh_maybeSort (fun x hx => List.of_mem_filter hx)
          have hfilter2 :
              (a :: maybeSort (st.alerts.filter (isFresh now))).filter (isFresh now)
                = maybeSort (st.alerts.filter (isFresh now)) := by
            rw [List.filter_cons, if_neg (by simp [hfresh'])]
            exact List.filter_eq_self.2 hall
          show (⟨_, _⟩ : CacheState) = _
          rw [hfilter2]
          rw [if_pos (by simp)]
          rw [maybeSort_idem]

/-- Witness for the amended C2 theorem: a duplicate of an indexed alert is
discarded, and a repeated singleton add with a non-empty id is idempotent. -/
theorem add_first_write_wins_witness :
    (addAlertsToCache 1000 [⟨"x", some 900, "flash", 0⟩]
        ⟨[⟨"x", some 1000, "flash", 0⟩], [("x", ⟨"x", some 1000, "flash", 0⟩)]⟩).1
      = ⟨[⟨"x", some 1000, "flash", 0⟩], [("x", ⟨"x", some 1000, "flash", 0⟩)]⟩ ∧
    (addAlertsToCache 1000 [⟨"y", some 1000, "flash", 0⟩]
        (addAlertsToCache 1000 [⟨"y", some 1000, "flash", 0⟩] initialCache).1).1
      = (addAlertsToCache 1000 [⟨"y", some 1000, "flash", 0⟩] initialCache).1 :=
  ⟨add_first_write_wins.1 1000 ⟨"x", some 900, "flash", 0⟩
      ⟨[⟨"x", some 1000, "flash", 0⟩], [("x", ⟨"x", some 1000, "flash", 0⟩)]⟩
      (by decide) (by decide),
   add_first_write_wins.2 1000 ⟨"y", some 1000, "flash", 0⟩ initialCache (by decide)⟩

/-! ## Case analysis of the stored sequence after an add -/

/-- After `addAlertsToCache` the stored sequence is either untouched or the
conditionally-sorted age-filtered merge of some sublist of the type-allowed
batch with the previous sequence. -/
theorem add_alerts_cases (now : Int) (batch : List Alert) (st : CacheState) :
    (addAlertsToCache now batch st).1.alerts = st.alerts ∨
    ∃ ns, ns.Sublist (allowedAlertsOf batch) ∧
      (addAlertsToCache now batch st).1.alerts
        = maybeSort ((ns ++ st.alerts).filter (isFresh now)) := by
  simp only [addAlertsToCache]
  by_cases h0 : batch = []
  · rw [if_pos h0]; left; rfl
  · rw [if_neg h0]
    by_cases h1 : allowedAlertsOf batch = []
    · rw [if_pos h1]; left; rfl
    · rw [if_neg h1]
      rcases foldl_admit_sublist now (now - CACHE_MAX_AGE_MS)
          (allowedAlertsOf batch) [] st.alertsMap with ⟨s, hs, hsub⟩
      by_cases h2 :
          ((allowedAlertsOf batch).foldl
            (admitStep now (now - CACHE_MAX_AGE_MS)) ([], st.alertsMap)).1 = []
      · rw [if_pos h2]; left; rfl
      · rw [if_neg h2]
        right
        refine ⟨s, hsub, ?_⟩
        rw [hs, List.nil_append]

theorem ts_ne_none_of_isFresh {now : Int} {x : Alert}
    (h : isFresh now x = true) : x.alertTimestamp ≠ none := by
  intro hn
  rw [isFresh, hn] at h
  cases h

/-- Whatever `getCachedAlerts` hands to the caller is drawn from the stored
sequence. -/
theorem cleanupPass_subset (now : Int) (st : CacheState) :
    ∀ x ∈ (cleanupPass now st).1, x ∈ st.alerts := by
  intro x hx
  unfold cleanupPass at hx
  split at hx
  · split at hx
    · split at hx
      · exact List.mem_of_mem_filter hx
      · exact hx
    · exact hx
  · exact hx

theorem getCachedAlerts_subset (now : Int) (filterTs : Option Int)
    (st : CacheState) :
    ∀ x ∈ (getCachedAlerts now filterTs st).1, x ∈ st.alerts := by
  intro x hx
  simp only [getCachedAlerts] at hx
  by_cases h0 : st.alerts = []
  · rw [if_pos h0] at hx
    cases filterTs <;> simp at hx
  · rw [if_neg h0] at hx
    cases filterTs with
    | none => exact cleanupPass_subset now st x hx
    | some fts =>
      exact cleanupPass_subset now st x (List.mem_of_mem_filter hx)

/-! ## Claim C9 -/

/-- C9: if every stored alert has a truthy timestamp (true initially and
preserved by every add), then (a) this still holds after any
`addAlertsToCache`, (b) an inbound alert with a falsy `alertTimestamp` is
never in the stored sequence afterwards, even if it passed the type and
duplicate checks, and (c) no timestamp-less alert is observable through
`getCachedAlerts`. -/
theorem add_timestamped_invariant (now : Int) (batch : List Alert)
    (st : CacheState) (filterTs : Option Int)
    (hinv : ∀ x ∈ st.alerts, x.alertTimestamp ≠ none) :
    (∀ x ∈ (addAlertsToCache now batch st).1.alerts, x.alertTimestamp ≠ none) ∧
    (∀ a ∈ batch, a.alertTimestamp = none →
        a ∉ (addAlertsToCache now batch st).1.alerts) ∧
    (∀ x ∈ (getCachedAlerts now filterTs st).1, x.alertTimestamp ≠ none) := by
  have hmain : ∀ x ∈ (addAlertsToCache now batch st).1.alerts,
      x.alertTimestamp ≠ none := by
    intro x hx
    rcases add_alerts_cases now batch st with hcase | ⟨ns, _, hcase⟩
    · rw [hcase] at hx
      exact hinv x hx
    · rw [hcase] at hx
      exact ts_ne_none_of_isFresh (List.of_mem_filter (mem_maybeSort.1 hx))
  refine ⟨hmain, ?_, ?_⟩
  · intro a _ hts hmem
    exact hmain a hmem hts
  · intro x hx
    exact hinv x (getCachedAlerts_subset now filterTs st x hx)

/-- Witness for C9 at a concrete input: a flash alert with no timestamp is
dropped even though it passes the type and duplicate checks. -/
theorem add_timestamped_invariant_witness :
    ⟨"x", none, "flash", 0⟩ ∉
      (addAlertsToCache 1000 [⟨"x", none, "flash", 0⟩] initialCache).1.alerts :=
  (add_timestamped_invariant 1000 [⟨"x", none, "flash", 0⟩] initialCache none
    (by simp [initialCache])).2.1
    ⟨"x", none, "flash", 0⟩ (by simp) rfl

/-! ## Claim C10 -/

theorem mem_allowedAlertsOf {a : Alert} {l : List Alert}
    (h : a ∈ allowedAlertsOf l) :
    getAlertTypesToWatchSet.contains (admissionTypeName a) = true := by
  rw [allowedAlertsOf, if_neg (by decide)] at h
  exact (List.mem_filter.1 h).2

/-- C10: an alert whose `alertType.name` is falsy is classified as type name
`'alert'` by both the admission filter of `addAlertsToCache` and the
read-time predicate built by `createAlertTypeFilter`; with the default watch
set `{flash, urgent}` in force, such an alert is rejected by the read-time
predicate and is never admitted to the store. -/
theorem typefilter_default_name (a : Alert) (hn : a.alertTypeName = "") :
    admissionTypeName a = "alert" ∧
    readTypeName a = "alert" ∧
    getAlertTypesToWatchSet.contains (admissionTypeName a) = false ∧
    typeFilterFn [] a = false ∧
    (∀ (now : Int) (batch : List Alert) (st : CacheState),
        a ∈ batch → a ∉ st.alerts →
        a ∉ (addAlertsToCache now batch st).1.alerts) := by
  have hadm : admissionTypeName a = "alert" := by
    rw [admissionTypeName, if_pos hn]
  have hread : readTypeName a = "alert" := by
    rw [readTypeName, if_pos hn]
  refine ⟨hadm, hread, by rw [hadm]; decide, ?_, ?_⟩
  · rw [typeFilterFn, if_neg (by decide), hread]
    decide
  · intro now batch st _ hst hmem
    rcases add_alerts_cases now batch st with hcase | ⟨ns, hsub, hcase⟩
    · rw [hcase] at hmem
      exact hst hmem
    · rw [hcase] at hmem
      rcases List.mem_append.1 (List.mem_of_mem_filter (mem_maybeSort.1 hmem))
          with hns | hold
      · have := mem_allowedAlertsOf (hsub.subset hns)
        rw [hadm] at this
        cases (by decide :
          getAlertTypesToWatchSet.contains "alert" = false) ▸ this
      · exact hst hold

/-- Witness for C10: a flash-window store never admits a name-less alert. -/
theorem typefilter_default_name_witness :
    typeFilterFn [] ⟨"x", some 1000, "", 0⟩ = false ∧
    ⟨"x", some 1000, "", 0⟩ ∉
      (addAlertsToCache 1000 [⟨"x", some 1000, "", 0⟩] initialCache).1.alerts :=
  ⟨(typefilter_default_name ⟨"x", some 1000, "", 0⟩ rfl).2.2.2.1,
   (typefilter_default_name ⟨"x", some 1000, "", 0⟩ rfl).2.2.2.2
     1000 [⟨"x", some 1000, "", 0⟩] initialCache (by simp) (by simp [initialCache])⟩

/-! ## Claim C3 -/

/-- C3: with the trial-mode flag set (it is `true` in src/constants.js),
every entity's lookup result carries, when the entity has `N > 0` matching
alerts, `data.summary = ["Alerts: N"]`, `data.details.alertCount = N` and
`data.details.alerts = []` (no alert bodies); an entity with no matching
alerts gets `data = null`. -/
theorem trial_lookup_spec :
    TRIAL_MODE = true ∧
    ∀ (entities : List Entity) (alerts : List SearchResult)
      (assembled : List LookupResult) (i : Nat) (e : Entity),
      entities.get? i = some e →
      ∃ out, (doLookupResults entities alerts assembled).get? i = some out ∧
        out.entity = e ∧
        (0 < entityAlertCount e alerts →
          out.data = some
            { summary := ["Alerts: " ++ toString (entityAlertCount e alerts)]
              trialSearch := true
              alertCount := entityAlertCount e alerts
              alerts := [] }) ∧
        (entityAlertCount e alerts = 0 → out.data = none) := by
  refine ⟨rfl, ?_⟩
  intro entities alerts assembled i e hget
  rw [show doLookupResults entities alerts assembled
        = trialLookupResults entities alerts from rfl,
      trialLookupResults, List.get?_map, hget, Option.map_some']
  refine ⟨_, rfl, rfl, ?_, ?_⟩
  · intro hpos
    show (if entityAlertCount e alerts > 0 then
        some ({ summary := ["Alerts: " ++ toString (entityAlertCount e alerts)]
                trialSearch := true
                alertCount := entityAlertCount e alerts
                alerts := [] } : LookupData)
      else none) = _
    rw [if_pos hpos]
  · intro hzero
    show (if entityAlertCount e alerts > 0 then
        some ({ summary := ["Alerts: " ++ toString (entityAlertCount e alerts)]
                trialSearch := true
                alertCount := entityAlertCount e alerts
                alerts := [] } : LookupData)
      else none) = none
    rw [if_neg (by omega)]

/-- Witness for C3: one entity with one matching alert. -/
theorem trial_lookup_spec_witness :
    ∃ out,
      (doLookupResults [⟨"1.1.1.1", true⟩]
          [⟨"1.1.1.1", some [⟨"X", some 5, "flash", 0⟩]⟩] []).get? 0 = some out ∧
      out.entity = ⟨"1.1.1.1", true⟩ ∧
      (0 < entityAlertCount ⟨"1.1.1.1", true⟩
          [⟨"1.1.1.1", some [⟨"X", some 5, "flash", 0⟩]⟩] →
        out.data = some
          { summary := ["Alerts: " ++ toString (entityAlertCount ⟨"1.1.1.1", true⟩
              [⟨"1.1.1.1", some [⟨"X", some 5, "flash", 0⟩]⟩])]
            trialSearch := true
            alertCount := entityAlertCount ⟨"1.1.1.1", true⟩
              [⟨"1.1.1.1", some [⟨"X", some 5, "flash", 0⟩]⟩]
            alerts := [] }) ∧
      (entityAlertCount ⟨"1.1.1.1", true⟩
          [⟨"1.1.1.1", some [⟨"X", some 5, "flash", 0⟩]⟩] = 0 →
        out.data = none) :=
  trial_lookup_spec.2 [⟨"1.1.1.1", true⟩]
    [⟨"1.1.1.1", some [⟨"X", some 5, "flash", 0⟩]⟩] [] 0 ⟨"1.1.1.1", true⟩ rfl

/-! ## Claim C7 -/

/-- C7 counterexample: the configurations `["Flash"]` and `["flash"]` are
equal as case-insensitive type-sets, yet the factory returns two distinct
predicate instances, because the memo key is built from the raw (not
lowercased) strings. -/
theorem filter_memo_counterexample :
    normalizedTypesFor ["Flash"] = normalizedTypesFor ["flash"] ∧
    (createAlertTypeFilter ["flash"] (createAlertTypeFilter ["Flash"] []).2).1
      ≠ (createAlertTypeFilter ["Flash"] []).1 := by
  decide

/-- C7 (amended): the factory is memoized under the stable key
`JSON.stringify` of the *raw* extracted type strings, sorted (no
lowercasing); two calls whose configured type lists are equal up to order —
case-sensitively, after substituting the default list for an empty
configuration — return the same predicate instance, and the second call
leaves the memo cache unchanged. -/
theorem filter_memo_key (t1 t2 : List String) (cache : FilterCache)
    (hkey : filterCacheKey t1 = filterCacheKey t2) :
    (createAlertTypeFilter t2 (createAlertTypeFilter t1 cache).2).1
      = (createAlertTypeFilter t1 cache).1 ∧
    (createAlertTypeFilter t2 (createAlertTypeFilter t1 cache).2).2
      = (createAlertTypeFilter t1 cache).2 := by
  unfold createAlertTypeFilter
  rw [← hkey]
  rcases hfind : cache.find? (fun p => p.1 == filterCacheKey t1) with _ | p
  · have hsecond : (cache ++ [(filterCacheKey t1, cache.length)]).find?
        (fun p => p.1 == filterCacheKey t1)
        = some (filterCacheKey t1, cache.length) := by
      rw [List.find?_append, hfind]
      simp
    simp [hfind, hsecond]
  · simp [hfind]

/-- Witness for the amended C7 theorem: the same set in two different orders
shares one instance. -/
theorem filter_memo_key_witness :
    (createAlertTypeFilter ["urgent", "flash"]
        (createAlertTypeFilter ["flash", "urgent"] []).2).1
      = (createAlertTypeFilter ["flash", "urgent"] []).1 ∧
    (createAlertTypeFilter ["urgent", "flash"]
        (createAlertTypeFilter ["flash", "urgent"] []).2).2
      = (createAlertTypeFilter ["flash", "urgent"] []).2 :=
  filter_memo_key ["flash", "urgent"] ["urgent", "flash"] [] (by decide)

/-! ## Claim C8 -/

theorem jsSplitAux_append (l1 l2 acc : List Char) (h : '.' ∉ l1) :
    jsSplitAux '.' (l1 ++ '.' :: l2) acc
      = (acc.reverse ++ l1) :: jsSplitAux '.' l2 [] := by
  induction l1 generalizing acc with
  | nil => simp [jsSplitAux]
  | cons c t ih =>
    have hc : ¬ (c = '.') := fun hEq => h (by simp [hEq])
    have ht : '.' ∉ t := fun hm => h (by simp [hm])
    simp only [List.cons_append, jsSplitAux, List.append_eq]
    rw [if_neg hc, ih _ ht]
    simp

theorem jsSplitAux_nodot (l acc : List Char) (h : '.' ∉ l) :
    jsSplitAux '.' l acc = [acc.reverse ++ l] := by
  induction l generalizing acc with
  | nil => simp [jsSplitAux]
  | cons c t ih =>
    have hc : ¬ (c = '.') := fun hEq => h (by simp [hEq])
    have ht : '.' ∉ t := fun hm => h (by simp [hm])
    simp only [jsSplitAux]
    rw [if_neg hc, ih _ ht]
    simp

set_option maxRecDepth 40000 in
theorem octet_no_dot : ∀ a : Fin 256, '.' ∉ (toString a.val).data := by
  decide

set_option maxRecDepth 40000 in
theorem octet_parse : ∀ a : Fin 256,
    parseIntLeading (toString a.val).data = some a.val := by
  decide

set_option maxRecDepth 40000 in
theorem octet_is_10 : ∀ a : Fin 256,
    ((toString a.val).data == "10".data) = decide (a.val = 10) := by
  decide

set_option maxRecDepth 40000 in
theorem octet_is_172 : ∀ a : Fin 256,
    ((toString a.val).data == "172".data) = decide (a.val = 172) := by
  decide

set_option maxRecDepth 40000 in
theorem octet_is_192 : ∀ a : Fin 256,
    ((toString a.val).data == "192".data) = decide (a.val = 192) := by
  decide

set_option maxRecDepth 40000 in
theorem octet_is_168 : ∀ a : Fin 256,
    ((toString a.val).data == "168".data) = decide (a.val = 168) := by
  decide

theorem jsSplitDot_mkIp (a b c d : Nat)
    (ha : a < 256) (hb : b < 256) (hc : c < 256) (hd : d < 256) :
    jsSplitDot (mkIp a b c d)
      = [(toString a).data, (toString b).data,
         (toString c).data, (toString d).data] := by
  have hdata : (mkIp a b c d).data
      = (toString a).data ++ '.' ::
        ((toString b).data ++ '.' :: ((toString c).data ++ '.' :: (toString d).data)) := by
    simp [mkIp, String.data_append]
  rw [jsSplitDot, hdata,
      jsSplitAux_append _ _ _ (octet_no_dot ⟨a, ha⟩),
      jsSplitAux_append _ _ _ (octet_no_dot ⟨b, hb⟩),
      jsSplitAux_append _ _ _ (octet_no_dot ⟨c, hc⟩),
      jsSplitAux_nodot _ _ (octet_no_dot ⟨d, hd⟩)]
  simp

/-- C8: `removePrivateIps` is the order-preserving filter that drops exactly
the entities with `isIP` whose value `isPrivateIP` accepts, and on canonical
dotted-quad IPv4 values `isPrivateIP` accepts exactly the addresses in
`10.0.0.0/8`, `172.16.0.0/12` and `192.168.0.0/16`. -/
theorem removePrivateIps_spec :
    (∀ a b c d : Nat, a < 256 → b < 256 → c < 256 → d < 256 →
      (isPrivateIP (mkIp a b c d) = true ↔
        (a = 10 ∨ (a = 172 ∧ 16 ≤ b ∧ b ≤ 31) ∨ (a = 192 ∧ b = 168)))) ∧
    (∀ entities : List Entity,
      removePrivateIps entities
        = entities.filter (fun e => !(e.isIP && isPrivateIP e.value))) := by
  constructor
  · intro a b c d ha hb hc hd
    rw [isPrivateIP, jsSplitDot_mkIp a b c d ha hb hc hd]
    show ((toString a).data == "10".data ||
      ((toString a).data == "172".data &&
        (match parseIntLeading (toString b).data with
         | some n => decide (16 ≤ n) && decide (n ≤ 31)
         | none => false)) ||
      ((toString a).data == "192".data && (toString b).data == "168".data))
      = true ↔ _
    rw [octet_is_10 ⟨a, ha⟩, octet_is_172 ⟨a, ha⟩, octet_is_192 ⟨a, ha⟩,
        octet_is_168 ⟨b, hb⟩, octet_parse ⟨b, hb⟩]
    simp [Bool.or_eq_true, Bool.and_eq_true, decide_eq_true_eq, and_assoc,
      or_assoc]
  · intro entities
    rw [removePrivateIps]
    apply List.filter_congr
    intro e _
    cases hip : e.isIP <;> cases hpriv : isPrivateIP e.value <;> simp [hip, hpriv]

/-- Witness for C8: `172.16.5.9` is recognised as private; a public IP
entity is kept. -/
theorem removePrivateIps_spec_witness :
    isPrivateIP (mkIp 172 16 5 9) = true ∧
    removePrivateIps [⟨"8.8.8.8", true⟩, ⟨"mydomain.com", false⟩]
      = [⟨"8.8.8.8", true⟩, ⟨"mydomain.com", false⟩] :=
  ⟨(removePrivateIps_spec.1 172 16 5 9 (by decide) (by decide) (by decide)
      (by decide)).2 (Or.inr (Or.inl ⟨rfl, by decide, by decide⟩)),
   by rw [removePrivateIps_spec.2]; decide⟩

/-! ## Claims C4 and C5 -/

/-- Once the token has been refreshed, the loop never refreshes again. -/
theorem execAux_refreshes_refreshed (script : Nat → Outcome) (rk : Bool)
    (mr : Nat) :
    ∀ (fuel att gen : Nat) (le : Option ReqError),
      (execAux script rk mr fuel att gen true le).refreshes = 0 := by
  intro fuel
  induction fuel with
  | zero => intro att gen le; rfl
  | succ n ih =>
    intro att gen le
    by_cases h1 : att > mr
    · simp only [execAux, if_pos h1]
    · cases hs : script att with
      | ok body => simp only [execAux, if_neg h1, hs]
      | err status reset =>
        simp only [execAux, if_neg h1, hs]
        rw [if_neg (by simp)]
        by_cases h3 : status = 429 ∧ att < mr
        · rw [if_pos h3]
          exact ih (att + 1) gen (some (.http status))
        · rw [if_neg h3]

/-- At most one token refresh ever happens in a run. -/
theorem execAux_refreshes_le_one (script : Nat → Outcome) (rk : Bool)
    (mr : Nat) :
    ∀ (fuel att gen : Nat) (le : Option ReqError),
      (execAux script rk mr fuel att gen false le).refreshes ≤ 1 := by
  intro fuel
  induction fuel with
  | zero => intro att gen le; exact Nat.zero_le 1
  | succ n ih =>
    intro att gen le
    by_cases h1 : att > mr
    · simp only [execAux, if_pos h1]; exact Nat.zero_le 1
    · cases hs : script att with
      | ok body =>
        simp only [execAux, if_neg h1, hs]
        exact Nat.zero_le 1
      | err status reset =>
        simp only [execAux, if_neg h1, hs]
        by_cases h2 : status = 401
        · rw [if_pos ⟨h2, trivial⟩]
          by_cases hrk : rk = true
          · rw [if_pos hrk]
            show (execAux script rk mr n (att + 1) (gen + 1) true
              (some (.http status))).refreshes + 1 ≤ 1
            rw [execAux_refreshes_refreshed]
          · rw [if_neg hrk]; exact Nat.zero_le 1
        · rw [if_neg (by simp [h2])]
          by_cases h3 : status = 429 ∧ att < mr
          · rw [if_pos h3]
            exact ih (att + 1) gen (some (.http status))
          · rw [if_neg h3]; exact Nat.zero_le 1

/-- Each 429 retry sleeps once, so at most `maxRetries - attempt` sleeps
remain from any point of the loop. -/
theorem execAux_sleeps_le (script : Nat → Outcome) (rk : Bool) (mr : Nat) :
    ∀ (fuel att gen : Nat) (tr : Bool) (le : Option ReqError),
      (execAux script rk mr fuel att gen tr le).sleeps.length ≤ mr - att := by
  intro fuel
  induction fuel with
  | zero => intro att gen tr le; exact Nat.zero_le _
  | succ n ih =>
    intro att gen tr le
    by_cases h1 : att > mr
    · simp only [execAux, if_pos h1]; exact Nat.zero_le _
    · cases hs : script att with
      | ok body =>
        simp only [execAux, if_neg h1, hs]
        exact Nat.zero_le _
      | err status reset =>
        simp only [execAux, if_neg h1, hs]
        by_cases h2 : status = 401 ∧ tr = false
        · rw [if_pos h2]
          by_cases hrk : rk = true
          · rw [if_pos hrk]
            show (execAux script rk mr n (att + 1) (gen + 1) true
              (some (.http status))).sleeps.length ≤ mr - att
            have := ih (att + 1) (gen + 1) true (some (.http status))
            omega
          · rw [if_neg hrk]; exact Nat.zero_le _
        · rw [if_neg h2]
          by_cases h3 : status = 429 ∧ att < mr
          · rw [if_pos h3]
            show (retryDelayMs att reset ::
              (execAux script rk mr n (att + 1) gen tr
                (some (.http status))).sleeps).length ≤ mr - att
            have := ih (att + 1) gen tr (some (.http status))
            have hlt := h3.2
            simp only [List.length_cons]
            omega
          · rw [if_neg h3]; exact Nat.zero_le _

/-- C4: a 401 invalidates the cached token and triggers exactly one refresh
and one retry carrying the new token generation; a second 401 on the retry
is surfaced as the error with no further refresh; a failing refresh call is
surfaced immediately (as the configuration error of the token endpoint) with
no retry; and no run ever refreshes more than once. -/
theorem auth_401_single_retry :
    (∀ (script : Nat → Outcome) (h : Option Nat) (b : Nat),
        script 0 = .err 401 h → script 1 = .ok b →
        executeRequest script true 3 = ⟨.ok b, 1, [], [0, 1]⟩) ∧
    (∀ (script : Nat → Outcome) (h h2 : Option Nat),
        script 0 = .err 401 h → script 1 = .err 401 h2 →
        executeRequest script true 3 = ⟨.error (.http 401), 1, [], [0, 1]⟩) ∧
    (∀ (script : Nat → Outcome) (h : Option Nat),
        script 0 = .err 401 h →
        executeRequest script false 3 = ⟨.error .tokenFail, 0, [], [0]⟩) ∧
    (∀ (script : Nat → Outcome) (rk : Bool),
        (executeRequest script rk 3).refreshes ≤ 1) := by
  refine ⟨?_, ?_, ?_, ?_⟩
  · intro script h b h0 h1
    simp [executeRequest, execAux, h0, h1]
  · intro script h h2 h0 h1
    simp [executeRequest, execAux, h0, h1]
  · intro script h h0
    simp [executeRequest, execAux, h0]
  · intro script rk
    exact execAux_refreshes_le_one script rk 3 5 0 0 none

/-- Witness for C4 at concrete scripts. -/
theorem auth_401_single_retry_witness :
    executeRequest (fun n => if n = 0 then .err 401 none else .ok 7) true 3
      = ⟨.ok 7, 1, [], [0, 1]⟩ ∧
    executeRequest (fun _ => .err 401 none) true 3
      = ⟨.error (.http 401), 1, [], [0, 1]⟩ ∧
    executeRequest (fun _ => .err 401 none) false 3
      = ⟨.error .tokenFail, 0, [], [0]⟩ :=
  ⟨auth_401_single_retry.1 (fun n => if n = 0 then .err 401 none else .ok 7)
      none 7 rfl rfl,
   auth_401_single_retry.2.1 (fun _ => .err 401 none) none none rfl rfl,
   auth_401_single_retry.2.2.1 (fun _ => .err 401 none) none rfl⟩

/-- C5: a 429 with `X-RateLimit-Reset = 2000` makes the first retry wait
exactly 2000 ms (so at least 2000 ms); with the header absent the waits are
`min(2^attempt, 60)` seconds — for the default `maxRetries = 3`, a stream of
429s is retried three times with waits 1000, 2000 and 4000 ms and the last
429 error is then surfaced; and no run sleeps more than `maxRetries`
times. -/
theorem rate_limit_429_retry :
    (∀ (script : Nat → Outcome) (rk : Bool),
        script 0 = .err 429 (some 2000) →
        (executeRequest script rk 3).sleeps.head? = some 2000 ∧
        2000 ≤ 2000) ∧
    (executeRequest (fun _ => .err 429 none) true 3
      = ⟨.error (.http 429), 0, [1000, 2000, 4000], [0, 0, 0, 0]⟩) ∧
    (∀ (script : Nat → Outcome) (rk : Bool) (mr : Nat),
        (executeRequest script rk mr).sleeps.length ≤ mr) := by
  refine ⟨?_, by decide, ?_⟩
  · intro script rk h0
    refine ⟨?_, le_refl 2000⟩
    simp [executeRequest, execAux, h0, retryDelayMs]
  · intro script rk mr
    have := execAux_sleeps_le script rk mr (mr + 2) 0 0 false none
    simpa using this

/-- Witness for C5: a single 429 carrying `X-RateLimit-Reset = 2000`
followed by a success sleeps exactly 2000 ms first. -/
theorem rate_limit_429_retry_witness :
    (executeRequest (fun n => if n = 0 then .err 429 (some 2000) else .ok 5)
        true 3).sleeps.head? = some 2000 ∧ 2000 ≤ 2000 :=
  rate_limit_429_retry.1
    (fun n => if n = 0 then .err 429 (some 2000) else .ok 5) true rfl

end DataminrPulse
